import Mathlib

/-!
Verification development for the framesnap adaptive batch processing engine.

The definitions below are a shallow embedding of the TypeScript hooks
`useAdvancedRequestManager` (circuit breaker + concurrency limiter),
`useTokenBudgetManager` (quota tracking) and `useSmartAIProcessor`
(batch scheduler).  JavaScript numbers are modelled as `Nat`/`Int`
(`ℚ` where the source does fractional arithmetic), `Map`s as
association lists, thrown exceptions as `Except`, and the
single-threaded event-loop interleavings as explicit operation lists.
-/

namespace Framesnap

/-! ### Circuit breaker (`useAdvancedRequestManager`, src/unnamed/part_008)

`CircuitBreakerState` mirrors the `CircuitBreakerState` interface
(fields `isOpen`, `failures`, `lastFailureTime`, `nextRetryTime`);
timestamps (`Date.now()`) are modelled as `Nat` milliseconds. -/

structure CircuitBreakerState where
  isOpen : Bool
  failures : Nat
  lastFailureTime : Nat
  nextRetryTime : Nat
deriving Repr, DecidableEq

def CIRCUIT_BREAKER_THRESHOLD : Nat := 5

def CIRCUIT_BREAKER_RESET_TIME : Nat := 60000

/-- The initial circuit breaker value passed to `useState` in the source. -/
def emptyCircuitBreaker : CircuitBreakerState :=
  { isOpen := false, failures := 0, lastFailureTime := 0, nextRetryTime := 0 }

/-- Embedding of `updateCircuitBreaker` (part_008, lines 384-409): on success the
breaker fully resets; on failure the consecutive-failure count is incremented and
the breaker opens when it reaches `CIRCUIT_BREAKER_THRESHOLD`, setting
`nextRetryTime := now + CIRCUIT_BREAKER_RESET_TIME`. -/
def updateCircuitBreaker (prev : CircuitBreakerState) (success : Bool) (now : Nat) :
    CircuitBreakerState :=
  if success then
    { isOpen := false, failures := 0, lastFailureTime := 0, nextRetryTime := 0 }
  else
    let newFailures := prev.failures + 1
    let shouldOpen : Bool := decide (CIRCUIT_BREAKER_THRESHOLD ≤ newFailures)
    { isOpen := shouldOpen
      failures := newFailures
      lastFailureTime := now
      nextRetryTime := if shouldOpen then now + CIRCUIT_BREAKER_RESET_TIME else prev.nextRetryTime }

/-- A sequence of `onResult`-style reports `(success, now)` folded through
`updateCircuitBreaker`. -/
def applyResults (s : CircuitBreakerState) (results : List (Bool × Nat)) : CircuitBreakerState :=
  results.foldl (fun st r => updateCircuitBreaker st r.1 r.2) s

/-! ### Request manager state and operations (part_008)

The mutable refs of `useAdvancedRequestManager` relevant to concurrency:
`currentConcurrency` (a plain JS number, which the `cancelAllRequests` reset
can drive negative through later `finally` decrements, hence `Int`),
`maxConcurrency`, and `pendingQueue` (ids of queued units of work).
`ranWork` records the ids whose unit of work was actually started,
`totalRequests` mirrors the stats counter incremented in `submitRequest`.
The per-request `RequestState` map and the timing statistics are not
modelled: they do not feed back into concurrency or the breaker. -/

structure RMState where
  circuitBreaker : CircuitBreakerState
  currentConcurrency : Int
  maxConcurrency : Nat
  pendingQueue : List String
  ranWork : List String
  totalRequests : Nat
deriving Repr, DecidableEq

/-- The synchronous entry of `executeRequest` inside `submitRequest`
(part_008, lines 465-483): at capacity the request is pushed onto
`pendingQueue`; otherwise `currentConcurrency` is incremented and the
unit of work starts running. -/
def enterExecute (s : RMState) (id : String) : RMState :=
  if (s.maxConcurrency : Int) ≤ s.currentConcurrency then
    { s with pendingQueue := s.pendingQueue ++ [id] }
  else
    { s with currentConcurrency := s.currentConcurrency + 1, ranWork := s.ranWork ++ [id] }

/-- Embedding of the synchronous prefix of `submitRequest` (part_008, lines
433-483): the circuit-breaker gate (throwing while open and
`now < nextRetryTime`, half-open close otherwise), the stats increment, and
the concurrency check of `executeRequest`.  The thrown message is modelled by
its fixed prefix (the source interpolates the retry timestamp). -/
def submitRequestStep (s : RMState) (id : String) (now : Nat) : Except String RMState :=
  if s.circuitBreaker.isOpen then
    if now < s.circuitBreaker.nextRetryTime then
      Except.error "Circuit breaker is open"
    else
      Except.ok (enterExecute
        { s with circuitBreaker.isOpen := false, totalRequests := s.totalRequests + 1 } id)
  else
    Except.ok (enterExecute { s with totalRequests := s.totalRequests + 1 } id)

/-- Embedding of `processQueue` (part_008, lines 411-431): a no-op at capacity
or on an empty queue, otherwise it dequeues the head and starts it. -/
def dispatchQueue (s : RMState) : RMState :=
  if (s.maxConcurrency : Int) ≤ s.currentConcurrency then s
  else
    match s.pendingQueue with
    | [] => s
    | id :: rest =>
      { s with pendingQueue := rest
               currentConcurrency := s.currentConcurrency + 1
               ranWork := s.ranWork ++ [id] }

/-- The settlement of an in-flight unit of work: the breaker hears the boolean
outcome (part_008, lines 501, 524) and the `finally` block decrements
`currentConcurrency` (lines 529-530). -/
def finishRequest (s : RMState) (success : Bool) (now : Nat) : RMState :=
  { s with currentConcurrency := s.currentConcurrency - 1
           circuitBreaker := updateCircuitBreaker s.circuitBreaker success now }

/-- Embedding of `cancelAllRequests` (part_008, lines 557-586): the pending
queue is rejected and cleared and `currentConcurrency` is reset to 0.
(Aborting the in-flight controllers and rewriting the request map do not
touch the modelled fields.) -/
def cancelAllRequests (s : RMState) : RMState :=
  { s with pendingQueue := [], currentConcurrency := 0 }

/-- The observable operations on the request manager.  `finish` is the
settlement of a request whose outcome is reported to the breaker;
`finishCancelled` is the settlement of a cancelled request, which skips the
breaker report (part_008, line 523) but still runs the `finally` decrement. -/
inductive RMOp where
  | submit (id : String) (now : Nat)
  | finish (success : Bool) (now : Nat)
  | finishCancelled
  | dispatch
  | cancelAll
deriving Repr, DecidableEq

/-- The single-threaded event-loop semantics: each operation is one
synchronous block of the source. A rejected `submit` (circuit open) leaves the
state unchanged. -/
def rmStep (s : RMState) : RMOp → RMState
  | .submit id now =>
    match submitRequestStep s id now with
    | .ok s2 => s2
    | .error _ => s
  | .finish success now => finishRequest s success now
  | .finishCancelled => { s with currentConcurrency := s.currentConcurrency - 1 }
  | .dispatch => dispatchQueue s
  | .cancelAll => cancelAllRequests s

/-- The initial state of the hook: fresh breaker, no requests in flight,
`maxConcurrency` ref initialised to 3 (part_008, line 347). -/
def initRM : RMState :=
  { circuitBreaker := emptyCircuitBreaker
    currentConcurrency := 0
    maxConcurrency := 3
    pendingQueue := []
    ranWork := []
    totalRequests := 0 }

def runOps (ops : List RMOp) : RMState := ops.foldl rmStep initRM

theorem enterExecute_maxConcurrency (s : RMState) (id : String) :
    (enterExecute s id).maxConcurrency = s.maxConcurrency := by
  unfold enterExecute
  split <;> rfl

theorem enterExecute_concurrency_le (s : RMState) (id : String)
    (h : s.currentConcurrency ≤ (s.maxConcurrency : Int)) :
    (enterExecute s id).currentConcurrency ≤ (s.maxConcurrency : Int) := by
  unfold enterExecute
  split
  · exact h
  · rename_i hlt
    show s.currentConcurrency + 1 ≤ (s.maxConcurrency : Int)
    omega

theorem submitRequestStep_ok_spec (s : RMState) (id : String) (now : Nat) (s2 : RMState)
    (hres : submitRequestStep s id now = Except.ok s2) :
    s2.maxConcurrency = s.maxConcurrency
    ∧ (s.currentConcurrency ≤ (s.maxConcurrency : Int) →
        s2.currentConcurrency ≤ (s.maxConcurrency : Int)) := by
  unfold submitRequestStep at hres
  by_cases h1 : s.circuitBreaker.isOpen = true
  · rw [if_pos h1] at hres
    by_cases h2 : now < s.circuitBreaker.nextRetryTime
    · rw [if_pos h2] at hres
      exact absurd hres (by simp)
    · rw [if_neg h2] at hres
      cases hres
      exact ⟨enterExecute_maxConcurrency _ id, fun h => enterExecute_concurrency_le _ id h⟩
  · rw [if_neg h1] at hres
    cases hres
    exact ⟨enterExecute_maxConcurrency _ id, fun h => enterExecute_concurrency_le _ id h⟩

theorem rmStep_maxConcurrency (s : RMState) (op : RMOp) :
    (rmStep s op).maxConcurrency = s.maxConcurrency := by
  cases op with
  | submit id now =>
    simp only [rmStep]
    cases hres : submitRequestStep s id now with
    | ok s2 => exact (submitRequestStep_ok_spec s id now s2 hres).1
    | error e => rfl
  | finish success now => rfl
  | finishCancelled => rfl
  | dispatch =>
    show (dispatchQueue s).maxConcurrency = s.maxConcurrency
    unfold dispatchQueue
    split
    · rfl
    · split <;> rfl
  | cancelAll => rfl

theorem rmStep_concurrency_le (s : RMState)
    (h : s.currentConcurrency ≤ (s.maxConcurrency : Int)) (op : RMOp) :
    (rmStep s op).currentConcurrency ≤ ((rmStep s op).maxConcurrency : Int) := by
  rw [rmStep_maxConcurrency]
  cases op with
  | submit id now =>
    simp only [rmStep]
    cases hres : submitRequestStep s id now with
    | ok s2 => exact (submitRequestStep_ok_spec s id now s2 hres).2 h
    | error e => exact h
  | finish success now =>
    show s.currentConcurrency - 1 ≤ (s.maxConcurrency : Int)
    omega
  | finishCancelled =>
    show s.currentConcurrency - 1 ≤ (s.maxConcurrency : Int)
    omega
  | dispatch =>
    show (dispatchQueue s).currentConcurrency ≤ (s.maxConcurrency : Int)
    unfold dispatchQueue
    split
    · exact h
    · rename_i hlt
      split
      · exact h
      · show s.currentConcurrency + 1 ≤ (s.maxConcurrency : Int)
        omega
  | cancelAll =>
    show (0 : Int) ≤ (s.maxConcurrency : Int)
    omega

theorem runOps_aux (ops : List RMOp) (s : RMState)
    (h : s.currentConcurrency ≤ (s.maxConcurrency : Int)) :
    (ops.foldl rmStep s).currentConcurrency ≤ ((ops.foldl rmStep s).maxConcurrency : Int) := by
  induction ops generalizing s with
  | nil => exact h
  | cons op rest ih =>
    rw [List.foldl_cons]
    exact ih (rmStep s op) (rmStep_concurrency_le s h op)

/-- C1: for every sequence of request-manager operations (request submission,
queued dispatch via `processQueue`, request settlement, cancel-all), the
in-flight count `currentConcurrency` never exceeds the configured
`maxConcurrency` ceiling. -/
theorem concurrency_never_exceeds_limit (ops : List RMOp) :
    (runOps ops).currentConcurrency ≤ ((runOps ops).maxConcurrency : Int) :=
  runOps_aux ops initRM (by simp [initRM])

theorem applyResults_failures (st : CircuitBreakerState) (times : List Nat) :
    (applyResults st (times.map fun t => ((false : Bool), t))).failures
      = st.failures + times.length := by
  induction times generalizing st with
  | nil => simp [applyResults]
  | cons t ts ih =>
    have hstep : applyResults st (((t :: ts).map fun t => ((false : Bool), t)))
        = applyResults (updateCircuitBreaker st false t) (ts.map fun t => ((false : Bool), t)) := by
      simp [applyResults]
    rw [hstep, ih]
    simp [updateCircuitBreaker]
    omega

theorem applyResults_isOpen (st : CircuitBreakerState) (times : List Nat) (hne : times ≠ []) :
    (applyResults st (times.map fun t => ((false : Bool), t))).isOpen
      = decide (CIRCUIT_BREAKER_THRESHOLD ≤ st.failures + times.length) := by
  induction times generalizing st with
  | nil => exact absurd rfl hne
  | cons t ts ih =>
    have hstep : applyResults st (((t :: ts).map fun t => ((false : Bool), t)))
        = applyResults (updateCircuitBreaker st false t) (ts.map fun t => ((false : Bool), t)) := by
      simp [applyResults]
    rw [hstep]
    cases ts with
    | nil =>
      simp [applyResults, updateCircuitBreaker]
    | cons t2 ts2 =>
      rw [ih _ (by simp)]
      have hf : (updateCircuitBreaker st false t).failures = st.failures + 1 := by
        simp [updateCircuitBreaker]
      rw [hf, decide_eq_decide]
      constructor <;> (intro hle; simp only [List.length_cons] at *; omega)

/-- C2: the circuit breaker opens exactly when the consecutive-failure count
reaches `CIRCUIT_BREAKER_THRESHOLD = 5` and not before (after any sequence of
consecutive failure reports from the fresh breaker, the failure count equals
the number of reports and the breaker is open iff that count has reached 5);
and while open with `now < nextRetryTime` every `submitRequest` throws
immediately, leaving the manager state unchanged — in particular neither
incrementing the in-flight count nor starting the unit of work. -/
theorem circuit_opens_at_threshold_and_rejects (times : List Nat) (s : RMState)
    (id : String) (now : Nat)
    (hopen : s.circuitBreaker.isOpen = true)
    (hnow : now < s.circuitBreaker.nextRetryTime) :
    (applyResults emptyCircuitBreaker (times.map fun t => ((false : Bool), t))).failures
        = times.length
    ∧ ((applyResults emptyCircuitBreaker (times.map fun t => ((false : Bool), t))).isOpen = true
        ↔ CIRCUIT_BREAKER_THRESHOLD ≤ times.length)
    ∧ submitRequestStep s id now = Except.error "Circuit breaker is open"
    ∧ rmStep s (RMOp.submit id now) = s := by
  have herr : submitRequestStep s id now = Except.error "Circuit breaker is open" := by
    simp [submitRequestStep, hopen, hnow]
  refine ⟨?_, ?_, herr, ?_⟩
  · rw [applyResults_failures]
    simp [emptyCircuitBreaker]
  · cases times with
    | nil => simp [applyResults, emptyCircuitBreaker, CIRCUIT_BREAKER_THRESHOLD]
    | cons t ts =>
      rw [applyResults_isOpen _ _ (by simp)]
      simp [emptyCircuitBreaker]
  · simp [rmStep, herr]

/-- A concrete open-breaker manager state used to witness the C2 theorem. -/
def openRMState : RMState :=
  { circuitBreaker := { isOpen := true, failures := 5, lastFailureTime := 40, nextRetryTime := 60040 }
    currentConcurrency := 0
    maxConcurrency := 3
    pendingQueue := []
    ranWork := []
    totalRequests := 7 }

theorem circuit_opens_at_threshold_and_rejects_witness :
    (openRMState.circuitBreaker.isOpen = true ∧ 50 < openRMState.circuitBreaker.nextRetryTime)
    ∧ ((applyResults emptyCircuitBreaker ([10, 20, 30, 35, 40].map fun t => ((false : Bool), t))).failures
          = [10, 20, 30, 35, 40].length
      ∧ ((applyResults emptyCircuitBreaker ([10, 20, 30, 35, 40].map fun t => ((false : Bool), t))).isOpen = true
          ↔ CIRCUIT_BREAKER_THRESHOLD ≤ [10, 20, 30, 35, 40].length)
      ∧ submitRequestStep openRMState "analyze-3" 50 = Except.error "Circuit breaker is open"
      ∧ rmStep openRMState (RMOp.submit "analyze-3" 50) = openRMState) :=
  ⟨⟨by decide, by decide⟩,
    circuit_opens_at_threshold_and_rejects [10, 20, 30, 35, 40] openRMState "analyze-3" 50
      (by decide) (by decide)⟩

/-! ### Token budget manager (`useTokenBudgetManager`, src/src/hooks/use-token-budget-manager.ts)

`TokenUsageData` mirrors the interface of the same name.  `checkBudgetStatus`
is translated branch for branch; JavaScript float arithmetic in the
rate-projection branch is modelled as exact rational arithmetic (the float
constants 0.8 and 0.5 appear as `4/5` and `1/2`), and `Math.floor`/`Math.ceil`
as `Int.floor`/`Int.ceil` on `ℚ`.  `Math.floor(availableTokens / 1500)` on the
possibly-negative integer `availableTokens` is floor division, `Int.fdiv`. -/

structure TokenUsageData where
  requestsPerMinute : Nat
  tokensPerMinute : Nat
  remainingTokens : Nat
  resetTime : Nat
  lastUpdated : Nat
deriving Repr, DecidableEq

structure BudgetStatus where
  canProceed : Bool
  suggestedDelay : Int
  recommendedBatchSize : Int
  reasoning : String
deriving Repr, DecidableEq

def TOKENS_PER_MINUTE_LIMIT : Nat := 200000

def ANALYSIS_TOKENS_PER_FRAME : Nat := 1500

def PROMPT_TOKENS_PER_FRAME : Nat := 400

def TOKEN_SAFETY_BUFFER : Nat := 10000

/-- Embedding of `checkBudgetStatus` (use-token-budget-manager.ts, lines
97-142).  `usage = none` models the `tokenUsage` state still being `null`;
`now` models `Date.now()`; the `reasoning` strings are modelled by their fixed
prefixes (the source interpolates numbers into them). -/
def checkBudgetStatus (usage : Option TokenUsageData) (now : Nat) (requestedTokens : Int) :
    BudgetStatus :=
  match usage with
  | none =>
    { canProceed := true
      suggestedDelay := 0
      recommendedBatchSize := 10
      reasoning := "No usage data available, proceeding with caution" }
  | some u =>
    let timeToReset : Nat := u.resetTime - now
    let availableTokens : Int := (u.remainingTokens : Int) - (TOKEN_SAFETY_BUFFER : Int)
    if availableTokens < requestedTokens then
      let batchSize : Int := Int.fdiv availableTokens (ANALYSIS_TOKENS_PER_FRAME : Int)
      { canProceed := decide (0 < batchSize)
        suggestedDelay := (timeToReset : Int) + 1000
        recommendedBatchSize := max 1 batchSize
        reasoning := "Insufficient tokens" }
    else
      let tokensPerSecond : ℚ := (u.tokensPerMinute : ℚ) / 60
      let projectedUsage : ℚ := tokensPerSecond * 60
      if (TOKENS_PER_MINUTE_LIMIT : ℚ) < projectedUsage + (requestedTokens : ℚ) then
        { canProceed := true
          suggestedDelay :=
            Int.ceil (((requestedTokens : ℚ) / ((TOKENS_PER_MINUTE_LIMIT : ℚ) * (4 / 5))) * 60000)
          recommendedBatchSize :=
            Int.floor (((availableTokens : ℚ) / (ANALYSIS_TOKENS_PER_FRAME : ℚ)) * (1 / 2))
          reasoning := "High usage detected" }
      else
        { canProceed := true
          suggestedDelay := 0
          recommendedBatchSize := Int.fdiv availableTokens (ANALYSIS_TOKENS_PER_FRAME : Int)
          reasoning := "Good to proceed" }

/-- Embedding of `getRemainingBudget` (use-token-budget-manager.ts, lines
144-156): `(tokens, timeToReset)`, with `Math.max(0, ...)` as truncated `Nat`
subtraction. -/
def getRemainingBudget (usage : Option TokenUsageData) (now : Nat) : Nat × Nat :=
  match usage with
  | none => (TOKENS_PER_MINUTE_LIMIT, 0)
  | some u => (u.remainingTokens - TOKEN_SAFETY_BUFFER, u.resetTime - now)

/-- C8: when the requested token cost exceeds `remaining − safetyBuffer`,
`checkBudgetStatus` recommends the largest batch size affordable from the
current remaining budget (the floor of `available / ANALYSIS_TOKENS_PER_FRAME`,
clamped to at least 1 in the returned field, and characterised below as the
greatest `n` with `n * ANALYSIS_TOKENS_PER_FRAME ≤ available`), and when that
affordable size is zero or negative it reports `canProceed = false` with a
suggested delay extending one second past the reset hint. -/
theorem checkBudget_insufficient_recommends_affordable (u : TokenUsageData) (now : Nat)
    (requested : Int)
    (h : (u.remainingTokens : Int) - (TOKEN_SAFETY_BUFFER : Int) < requested) :
    (checkBudgetStatus (some u) now requested).recommendedBatchSize
        = max 1 (Int.fdiv ((u.remainingTokens : Int) - (TOKEN_SAFETY_BUFFER : Int))
            (ANALYSIS_TOKENS_PER_FRAME : Int))
    ∧ ((checkBudgetStatus (some u) now requested).canProceed = true
        ↔ 0 < Int.fdiv ((u.remainingTokens : Int) - (TOKEN_SAFETY_BUFFER : Int))
            (ANALYSIS_TOKENS_PER_FRAME : Int))
    ∧ (checkBudgetStatus (some u) now requested).suggestedDelay
        = ((u.resetTime - now : Nat) : Int) + 1000
    ∧ (Int.fdiv ((u.remainingTokens : Int) - (TOKEN_SAFETY_BUFFER : Int))
          (ANALYSIS_TOKENS_PER_FRAME : Int) ≤ 0 →
        (checkBudgetStatus (some u) now requested).canProceed = false)
    ∧ (∀ n : Nat,
        (n : Int) ≤ Int.fdiv ((u.remainingTokens : Int) - (TOKEN_SAFETY_BUFFER : Int))
            (ANALYSIS_TOKENS_PER_FRAME : Int)
          ↔ (n : Int) * (ANALYSIS_TOKENS_PER_FRAME : Int)
              ≤ (u.remainingTokens : Int) - (TOKEN_SAFETY_BUFFER : Int)) := by
  have hunfold : checkBudgetStatus (some u) now requested
      = { canProceed := decide (0 < Int.fdiv ((u.remainingTokens : Int) - (TOKEN_SAFETY_BUFFER : Int))
            (ANALYSIS_TOKENS_PER_FRAME : Int))
          suggestedDelay := ((u.resetTime - now : Nat) : Int) + 1000
          recommendedBatchSize := max 1 (Int.fdiv ((u.remainingTokens : Int) - (TOKEN_SAFETY_BUFFER : Int))
            (ANALYSIS_TOKENS_PER_FRAME : Int))
          reasoning := "Insufficient tokens" } := by
    simp only [checkBudgetStatus]
    rw [if_pos h]
  have hfd : Int.fdiv ((u.remainingTokens : Int) - (TOKEN_SAFETY_BUFFER : Int))
      (ANALYSIS_TOKENS_PER_FRAME : Int)
      = ((u.remainingTokens : Int) - (TOKEN_SAFETY_BUFFER : Int)) / (ANALYSIS_TOKENS_PER_FRAME : Int) :=
    Int.fdiv_eq_ediv _ (by positivity)
  refine ⟨by rw [hunfold], ?_, by rw [hunfold], ?_, ?_⟩
  · rw [hunfold]
    simp
  · intro hle
    rw [hunfold]
    simp only [decide_eq_false_iff_not, not_lt]
    simpa using hle
  · intro n
    rw [hfd]
    show (n : Int) ≤ _ / (1500 : Int) ↔ (n : Int) * (1500 : Int) ≤ _
    omega

/-- A concrete usage snapshot to witness C8: 11500 tokens remaining leaves
1500 available past the safety buffer, affording exactly one frame. -/
def tightUsage : TokenUsageData :=
  { requestsPerMinute := 4, tokensPerMinute := 9000, remainingTokens := 11500
    resetTime := 7000, lastUpdated := 2000 }

theorem checkBudget_insufficient_recommends_affordable_witness :
    ((tightUsage.remainingTokens : Int) - (TOKEN_SAFETY_BUFFER : Int) < 100000)
    ∧ ((checkBudgetStatus (some tightUsage) 2000 100000).recommendedBatchSize
          = max 1 (Int.fdiv ((tightUsage.remainingTokens : Int) - (TOKEN_SAFETY_BUFFER : Int))
              (ANALYSIS_TOKENS_PER_FRAME : Int))
      ∧ ((checkBudgetStatus (some tightUsage) 2000 100000).canProceed = true
          ↔ 0 < Int.fdiv ((tightUsage.remainingTokens : Int) - (TOKEN_SAFETY_BUFFER : Int))
              (ANALYSIS_TOKENS_PER_FRAME : Int))
      ∧ (checkBudgetStatus (some tightUsage) 2000 100000).suggestedDelay
          = ((tightUsage.resetTime - 2000 : Nat) : Int) + 1000
      ∧ (Int.fdiv ((tightUsage.remainingTokens : Int) - (TOKEN_SAFETY_BUFFER : Int))
            (ANALYSIS_TOKENS_PER_FRAME : Int) ≤ 0 →
          (checkBudgetStatus (some tightUsage) 2000 100000).canProceed = false)
      ∧ (∀ n : Nat,
          (n : Int) ≤ Int.fdiv ((tightUsage.remainingTokens : Int) - (TOKEN_SAFETY_BUFFER : Int))
              (ANALYSIS_TOKENS_PER_FRAME : Int)
            ↔ (n : Int) * (ANALYSIS_TOKENS_PER_FRAME : Int)
                ≤ (tightUsage.remainingTokens : Int) - (TOKEN_SAFETY_BUFFER : Int))) :=
  ⟨by decide, checkBudget_insufficient_recommends_affordable tightUsage 2000 100000 (by decide)⟩

/-! ### Smart batch scheduler data model (`useSmartAIProcessor`,
src/src/hooks/use-smart-ai-processor.ts)

`FrameTask`, `ProcessingState`, `SmartBatchProgress` and the quality-profile
presets are transcribed from the interfaces and constants of the source file.
Fractional fields (`estimatedTimeRemaining`, `processingSpeed`) are `ℚ`. -/

inductive Operation where
  | analyze
  | prompt
deriving Repr, DecidableEq

inductive QualityProfile where
  | conservative
  | balanced
  | aggressive
deriving Repr, DecidableEq

/-- The `batchSizes` table inside `createBatches` (lines 271-275). -/
def batchSizeFor : QualityProfile → Nat
  | .conservative => 3
  | .balanced => 5
  | .aggressive => 8

/-- The `concurrencyLimits` table of the profile effect (lines 94-98). -/
def concurrencyLimitFor : QualityProfile → Nat
  | .conservative => 1
  | .balanced => 2
  | .aggressive => 3

/-- The per-profile adaptive inter-batch delay set in `processFrames`
(line 398). -/
def adaptiveDelayFor : QualityProfile → Nat
  | .conservative => 4000
  | .balanced => 2500
  | .aggressive => 1500

inductive Phase where
  | idle
  | planning
  | processing
  | paused
  | complete
deriving Repr, DecidableEq

structure FrameTask where
  frameIndex : Nat
  imageData : String
  operation : Operation
  imageDescription : Option String
  priority : Nat
  retryCount : Nat
deriving Repr, DecidableEq

/-- A caller-supplied frame, the element type of `processFrames`' input. -/
structure FrameSpec where
  index : Nat
  dataUrl : String
  operation : Operation
  imageDescription : Option String
deriving Repr, DecidableEq

structure ProcessingState where
  isAnalyzing : Bool
  isGeneratingPrompt : Bool
  error : Option String
  retryCount : Nat
  canStop : Bool
  isFromCache : Bool
  progress : Nat
deriving Repr, DecidableEq

structure SmartBatchProgress where
  phase : Phase
  currentBatch : Nat
  totalBatches : Nat
  currentBatchSize : Nat
  framesInCurrentBatch : Nat
  totalFrames : Nat
  completedFrames : Nat
  failedFrames : Nat
  cachedFrames : Nat
  estimatedTimeRemaining : ℚ
  tokenBudgetUsed : Nat
  tokenBudgetRemaining : Nat
  processingSpeed : ℚ
  adaptiveDelayMs : Nat
  qualityProfile : QualityProfile
deriving Repr, DecidableEq

/-! ### Batch partitioning (`createBatches`, lines 270-286)

The source loop `for (let i = 0; i < tasks.length; i += size)
batches.push(tasks.slice(i, i + size))` is embedded index-for-index:
batch `j` is `tasks.slice(j*size, j*size + size)` and the loop runs
`ceil(tasks.length / size)` times.  With `size ≤ 0` and a non-empty task
list the JS loop never terminates; `createBatches` returns `none` there. -/

def chunkIdx {α : Type} (s : Nat) (l : List α) : List (List α) :=
  (List.range ((l.length + s - 1) / s)).map fun j => (l.drop (j * s)).take s

theorem chunkIdx_nil {α : Type} (s : Nat) : chunkIdx s ([] : List α) = [] := by
  unfold chunkIdx
  have h0 : (([] : List α).length + s - 1) / s = 0 := by
    simp only [List.length_nil, Nat.zero_add]
    rcases Nat.eq_zero_or_pos s with rfl | hs
    · simp
    · exact Nat.div_eq_of_lt (by omega)
  rw [h0]
  rfl

theorem chunkIdx_cons_eq {α : Type} (s : Nat) (hs : 0 < s) (l : List α) (hl : l ≠ []) :
    chunkIdx s l = l.take s :: chunkIdx s (l.drop s) := by
  have hlen : 1 ≤ l.length := List.length_pos.mpr hl
  have hn1 : (l.length + s - 1) / s = (l.length - 1) / s + 1 := by
    have h1 : l.length + s - 1 = (l.length - 1) + s := by omega
    rw [h1, Nat.add_div_right _ hs]
  have hn2 : ((l.drop s).length + s - 1) / s = (l.length - 1) / s := by
    rw [List.length_drop]
    rcases le_or_lt l.length s with hle | hlt
    · have h2 : l.length - s = 0 := by omega
      rw [h2, Nat.div_eq_of_lt (by omega), Nat.div_eq_of_lt (by omega)]
    · have h2 : l.length - s + s - 1 = (l.length - 1 - s) + s := by omega
      have h3 : l.length - 1 = (l.length - 1 - s) + s := by omega
      rw [h2, Nat.add_div_right _ hs]
      conv_rhs => rw [h3, Nat.add_div_right _ hs]
  unfold chunkIdx
  rw [hn1, hn2, List.range_succ_eq_map, List.map_cons]
  congr 1
  · simp
  · rw [List.map_map]
    apply List.map_congr_left
    intro j hj
    simp only [Function.comp_apply]
    rw [List.drop_drop]
    congr 2
    rw [Nat.succ_mul]
    ring

theorem chunkIdx_spec {α : Type} (s : Nat) (hs : 0 < s) (l : List α) :
    (chunkIdx s l).flatten = l
    ∧ (∀ b ∈ chunkIdx s l, b ≠ [] ∧ b.length ≤ s)
    ∧ (∀ b ∈ (chunkIdx s l).dropLast, b.length = s) := by
  generalize hn : l.length = n
  induction n using Nat.strong_induction_on generalizing l with
  | _ n ih =>
    rcases eq_or_ne l [] with rfl | hl
    · simp [chunkIdx_nil]
    · have hlen : 1 ≤ l.length := List.length_pos.mpr hl
      have hrec := chunkIdx_cons_eq s hs l hl
      have hdlt : (l.drop s).length < n := by
        rw [List.length_drop]
        omega
      have ihd := ih (l.drop s).length hdlt (l.drop s) rfl
      rw [hrec]
      refine ⟨?_, ?_, ?_⟩
      · rw [List.flatten_cons, ihd.1]
        exact List.take_append_drop s l
      · intro b hb
        rcases List.mem_cons.mp hb with rfl | hb2
        · refine ⟨?_, ?_⟩
          · have hpos : 0 < (l.take s).length := by
              rw [List.length_take]
              omega
            exact List.ne_nil_of_length_pos hpos
          · rw [List.length_take]
            omega
        · exact ihd.2.1 b hb2
      · intro b hb
        by_cases hrest : chunkIdx s (l.drop s) = []
        · rw [hrest] at hb
          simp at hb
        · rw [List.dropLast_cons_of_ne_nil hrest] at hb
          rcases List.mem_cons.mp hb with rfl | hb2
          · have hne : l.drop s ≠ [] := by
              intro hdz
              rw [hdz, chunkIdx_nil] at hrest
              exact hrest rfl
            have hslt : s < l.length := by
              by_contra hge
              push_neg at hge
              exact hne (List.drop_eq_nil_of_le hge)
            rw [List.length_take]
            omega
          · exact ihd.2.2 b hb2

/-- The batch size chosen by `createBatches`:
`Math.min(batchSizes[qualityProfile], budgetStatus.recommendedBatchSize)`
where `budgetStatus = checkBudgetStatus(tasks.length * 1500)`. -/
def recommendedSizeFor (tasksLen : Nat) (qp : QualityProfile) (usage : Option TokenUsageData)
    (now : Nat) : Int :=
  min (batchSizeFor qp : Int)
    (checkBudgetStatus usage now ((tasksLen : Int) * 1500)).recommendedBatchSize

/-- Embedding of `createBatches` (use-smart-ai-processor.ts, lines 270-286).
`none` models the non-terminating JS loop when the chosen size is not
positive while tasks remain. -/
def createBatches (tasks : List FrameTask) (qp : QualityProfile) (usage : Option TokenUsageData)
    (now : Nat) : Option (List (List FrameTask)) :=
  let s := recommendedSizeFor tasks.length qp usage now
  if 0 < s then some (chunkIdx s.toNat tasks)
  else if tasks = [] then some [] else none

/-- C5: whenever the budget advice is positive, `createBatches` partitions the
task list into ordered contiguous batches of size
`min(profileBatchSize, recommendedBatchSize)` — every batch except possibly
the last has exactly that size, every batch is non-empty and no larger, their
concatenation in order is the submitted list — and the profile batch sizes
are conservative = 3, balanced = 5, aggressive = 8. -/
theorem createBatches_partitions (tasks : List FrameTask) (qp : QualityProfile)
    (usage : Option TokenUsageData) (now : Nat)
    (h : 1 ≤ (checkBudgetStatus usage now ((tasks.length : Int) * 1500)).recommendedBatchSize) :
    batchSizeFor QualityProfile.conservative = 3
    ∧ batchSizeFor QualityProfile.balanced = 5
    ∧ batchSizeFor QualityProfile.aggressive = 8
    ∧ recommendedSizeFor tasks.length qp usage now
        = min (batchSizeFor qp : Int)
            (checkBudgetStatus usage now ((tasks.length : Int) * 1500)).recommendedBatchSize
    ∧ ∃ bs, createBatches tasks qp usage now = some bs
        ∧ bs.flatten = tasks
        ∧ (∀ b ∈ bs, b ≠ [] ∧ (b.length : Int) ≤ recommendedSizeFor tasks.length qp usage now)
        ∧ (∀ b ∈ bs.dropLast,
            (b.length : Int) = recommendedSizeFor tasks.length qp usage now) := by
  have hqp : (1 : Int) ≤ (batchSizeFor qp : Int) := by
    cases qp <;> simp [batchSizeFor]
  have hpos : 0 < recommendedSizeFor tasks.length qp usage now := by
    unfold recommendedSizeFor
    exact lt_of_lt_of_le Int.zero_lt_one (le_min hqp h)
  have hcast : ((recommendedSizeFor tasks.length qp usage now).toNat : Int)
      = recommendedSizeFor tasks.length qp usage now := Int.toNat_of_nonneg hpos.le
  have htn : 0 < (recommendedSizeFor tasks.length qp usage now).toNat := by omega
  obtain ⟨hflat, hmem, hlast⟩ :=
    chunkIdx_spec (recommendedSizeFor tasks.length qp usage now).toNat htn tasks
  refine ⟨rfl, rfl, rfl, rfl, chunkIdx (recommendedSizeFor tasks.length qp usage now).toNat tasks,
    ?_, hflat, ?_, ?_⟩
  · unfold createBatches
    rw [if_pos hpos]
  · intro b hb
    refine ⟨(hmem b hb).1, ?_⟩
    have := (hmem b hb).2
    omega
  · intro b hb
    have := hlast b hb
    omega

/-- Two concrete tasks to witness C5. -/
def wTasks : List FrameTask :=
  [{ frameIndex := 0, imageData := "imgA", operation := Operation.analyze,
     imageDescription := none, priority := 1, retryCount := 0 },
   { frameIndex := 1, imageData := "imgB", operation := Operation.prompt,
     imageDescription := some "desc", priority := 1, retryCount := 0 }]

theorem createBatches_partitions_witness :
    (1 ≤ (checkBudgetStatus none 0 ((wTasks.length : Int) * 1500)).recommendedBatchSize)
    ∧ (batchSizeFor QualityProfile.conservative = 3
      ∧ batchSizeFor QualityProfile.balanced = 5
      ∧ batchSizeFor QualityProfile.aggressive = 8
      ∧ recommendedSizeFor wTasks.length QualityProfile.balanced none 0
          = min (batchSizeFor QualityProfile.balanced : Int)
              (checkBudgetStatus none 0 ((wTasks.length : Int) * 1500)).recommendedBatchSize
      ∧ ∃ bs, createBatches wTasks QualityProfile.balanced none 0 = some bs
          ∧ bs.flatten = wTasks
          ∧ (∀ b ∈ bs, b ≠ []
              ∧ (b.length : Int) ≤ recommendedSizeFor wTasks.length QualityProfile.balanced none 0)
          ∧ (∀ b ∈ bs.dropLast,
              (b.length : Int) = recommendedSizeFor wTasks.length QualityProfile.balanced none 0)) :=
  ⟨by decide, createBatches_partitions wTasks QualityProfile.balanced none 0 (by decide)⟩

/-! ### Scheduler state machine (`useSmartAIProcessor`)

`SchedulerState` bundles the hook state: the `frameStates` map (association
list), the `progress` record, the `isPaused`/`isProcessing` refs and the
`failedTasks` ref.  The `taskQueue` ref of the source is declared but never
used and is omitted.

Batch execution is driven by an environment: per-task outcomes (success,
possibly served from cache, or failure with a message) stand for the settled
promises of `analyzeFrame`/`generatePrompt`, the per-iteration control input
records whether the caller paused (and then resumed or stopped) while the
previous batch was awaited, and the per-batch speed/ETA pair stands for the
wall-clock-derived `processingSpeed`/`estimatedTimeRemaining` values (the
source computes them from `Date.now()` and a stale closure snapshot of
`progress`; their numeric value feeds back into nothing).  Within a batch the
counter updates of concurrently settling tasks commute, so they are folded in
list order. -/

def defaultProcessingState : ProcessingState :=
  { isAnalyzing := false, isGeneratingPrompt := false, error := none, retryCount := 0,
    canStop := false, isFromCache := false, progress := 0 }

def getFrameState (m : List (Nat × ProcessingState)) (i : Nat) : ProcessingState :=
  (m.lookup i).getD defaultProcessingState

def setFrameState (m : List (Nat × ProcessingState)) (i : Nat) (st : ProcessingState) :
    List (Nat × ProcessingState) :=
  (i, st) :: m.filter fun p => p.1 ≠ i

structure SchedulerState where
  frameStates : List (Nat × ProcessingState)
  progress : SmartBatchProgress
  isPaused : Bool
  isProcessing : Bool
  failedTasks : List FrameTask
deriving Repr, DecidableEq

/-- The initial hook state (use-smart-ai-processor.ts, lines 64-90). -/
def idleSchedulerState : SchedulerState :=
  { frameStates := []
    progress :=
      { phase := Phase.idle, currentBatch := 0, totalBatches := 0, currentBatchSize := 0,
        framesInCurrentBatch := 0, totalFrames := 0, completedFrames := 0, failedFrames := 0,
        cachedFrames := 0, estimatedTimeRemaining := 0, tokenBudgetUsed := 0,
        tokenBudgetRemaining := 0, processingSpeed := 0, adaptiveDelayMs := 2000,
        qualityProfile := QualityProfile.balanced }
    isPaused := false
    isProcessing := false
    failedTasks := [] }

/-- The settled outcome of one task's `analyzeFrame`/`generatePrompt` call:
success (with the cache-hit flag of the analyze path) or failure with the
error message. -/
inductive TaskOutcome where
  | success (fromCache : Bool)
  | failure (msg : String)
deriving Repr, DecidableEq

/-- The net effect of `processTask` (lines 288-311) together with the frame
state updates of `analyzeFrame` (139-219) / `generatePrompt` (221-268) and
the `framesInCurrentBatch` increment of the `processBatch` wrapper (329-336):
on success `completedFrames` and `framesInCurrentBatch` are incremented and
the frame state ends with `retryCount = 0`, `progress = 100` (and, on the
analyze path, the cache-hit flag); on failure the frame state records the
error and increments its retry count, the mutated task (with `retryCount+1`)
is pushed onto `failedTasks`, and `failedFrames` is incremented. -/
def applyTaskOutcome (s : SchedulerState) (t : FrameTask) (o : TaskOutcome) : SchedulerState :=
  match o with
  | .success fromCache =>
    let prev := getFrameState s.frameStates t.frameIndex
    let st :=
      match t.operation with
      | .analyze =>
        { prev with isAnalyzing := false, error := none, retryCount := 0, canStop := false,
                    isFromCache := fromCache, progress := 100 }
      | .prompt =>
        { prev with isGeneratingPrompt := false, error := none, retryCount := 0, canStop := false,
                    progress := 100 }
    { s with frameStates := setFrameState s.frameStates t.frameIndex st
             progress :=
               { s.progress with completedFrames := s.progress.completedFrames + 1
                                 framesInCurrentBatch := s.progress.framesInCurrentBatch + 1 } }
  | .failure msg =>
    let prev := getFrameState s.frameStates t.frameIndex
    let st :=
      match t.operation with
      | .analyze =>
        { prev with isAnalyzing := false, error := some msg, retryCount := prev.retryCount + 1,
                    canStop := false, progress := 0 }
      | .prompt =>
        { prev with isGeneratingPrompt := false, error := some msg,
                    retryCount := prev.retryCount + 1, canStop := false, progress := 0 }
    { s with frameStates := setFrameState s.frameStates t.frameIndex st
             failedTasks := s.failedTasks ++ [{ t with retryCount := t.retryCount + 1 }]
             progress := { s.progress with failedFrames := s.progress.failedFrames + 1 } }

/-- All tasks of one batch settling (the `Promise.allSettled` join), folded in
list order with their outcomes; outcomes beyond the provided list default to
failure. -/
def runTasks : SchedulerState → List FrameTask → List TaskOutcome → SchedulerState
  | s, [], _ => s
  | s, t :: ts, [] => runTasks (applyTaskOutcome s t (TaskOutcome.failure "missing outcome")) ts []
  | s, t :: ts, o :: os => runTasks (applyTaskOutcome s t o) ts os

/-- Embedding of `processBatch` (lines 313-352): the batch-header progress
update, the settlement of all tasks, and the trailing speed/ETA update (the
throttle sleep changes no modelled state). -/
def processBatch (s : SchedulerState) (batch : List FrameTask) (batchIndex : Nat)
    (outs : List TaskOutcome) (speedEta : ℚ × ℚ) : SchedulerState :=
  let s1 :=
    { s with progress :=
        { s.progress with currentBatch := batchIndex + 1, currentBatchSize := batch.length,
                          framesInCurrentBatch := 0 } }
  let s2 := runTasks s1 batch outs
  { s2 with progress :=
      { s2.progress with processingSpeed := speedEta.1
                         estimatedTimeRemaining := speedEta.2 } }

/-- What the caller did while the previous batch was awaited, observed by the
pause check at the top of the batch loop (lines 406-414): nothing, paused and
later resumed, or paused and then stopped (`stopProcessing`, lines 448-453). -/
inductive BatchControl where
  | run
  | pauseThenResume
  | pauseThenStop
deriving Repr, DecidableEq

/-- The environment of one `processFrames` run: per-iteration control, the
per-batch task outcomes, and the per-batch observed speed/ETA pairs. -/
structure BatchEnv where
  ctrl : List BatchControl
  outs : List (List TaskOutcome)
  speedEta : List (ℚ × ℚ)
deriving Repr, DecidableEq

/-- The batch loop of `processFrames` (lines 405-428).  On `pauseThenStop` the
wait loop observes `isProcessing = false` and breaks out of the loop after
`stopProcessing` has set the phase to `idle` (the inter-batch delays change no
modelled state). -/
def runBatches (env : BatchEnv) : List (List FrameTask) → Nat → SchedulerState → SchedulerState
  | [], _, s => s
  | b :: rest, i, s =>
    match env.ctrl.getD i BatchControl.run with
    | .run =>
      runBatches env rest (i + 1)
        (processBatch s b i (env.outs.getD i []) (env.speedEta.getD i (0, 0)))
    | .pauseThenResume =>
      let s1 := { s with isPaused := true, progress := { s.progress with phase := Phase.paused } }
      let s2 :=
        { s1 with isPaused := false, progress := { s1.progress with phase := Phase.processing } }
      runBatches env rest (i + 1)
        (processBatch s2 b i (env.outs.getD i []) (env.speedEta.getD i (0, 0)))
    | .pauseThenStop =>
      let s1 := { s with isPaused := true, progress := { s.progress with phase := Phase.paused } }
      { s1 with isPaused := false, isProcessing := false,
                progress := { s1.progress with phase := Phase.idle } }

/-- The task conversion at the head of `processFrames` (lines 368-375): every
submitted frame becomes a task with `priority := 1` and `retryCount := 0`. -/
def framesToTasks (frames : List FrameSpec) : List FrameTask :=
  frames.map fun f =>
    { frameIndex := f.index, imageData := f.dataUrl, operation := f.operation,
      imageDescription := f.imageDescription, priority := 1, retryCount := 0 }

/-- The fresh progress record installed by `processFrames` (lines 384-400). -/
def planningProgress (totalFrames totalBatches : Nat) (qp : QualityProfile)
    (usage : Option TokenUsageData) (now : Nat) : SmartBatchProgress :=
  { phase := Phase.planning, currentBatch := 0, totalBatches := totalBatches,
    currentBatchSize := 0, framesInCurrentBatch := 0, totalFrames := totalFrames,
    completedFrames := 0, failedFrames := 0, cachedFrames := 0, estimatedTimeRemaining := 0,
    tokenBudgetUsed := 0, tokenBudgetRemaining := (getRemainingBudget usage now).1,
    processingSpeed := 0, adaptiveDelayMs := adaptiveDelayFor qp, qualityProfile := qp }

/-- Embedding of `processFrames` (lines 354-437).  The result is the final
hook state, the batches created, and whether the call threw; `none` models a
non-terminating `createBatches` loop.  The guard throws before mutating
anything; otherwise the run ends by setting phase `complete` (even after a
`pauseThenStop` break) and clearing `isProcessing` in the `finally`. -/
def processFrames (s0 : SchedulerState) (frames : List FrameSpec) (qp : QualityProfile)
    (usage : Option TokenUsageData) (now : Nat) (env : BatchEnv) :
    Option (SchedulerState × List (List FrameTask) × Except String Unit) :=
  if s0.isProcessing then some (s0, [], Except.error "Processing already in progress")
  else
    let s1 := { s0 with isProcessing := true, isPaused := false, failedTasks := [] }
    let tasks := framesToTasks frames
    match createBatches tasks qp usage now with
    | none => none
    | some batches =>
      let s2 := { s1 with progress := planningProgress frames.length batches.length qp usage now }
      let s3 := { s2 with progress := { s2.progress with phase := Phase.processing } }
      let s4 := runBatches env batches 0 s3
      some ({ s4 with isProcessing := false,
                      progress := { s4.progress with phase := Phase.complete } },
            batches, Except.ok ())

/-- The frame view of the failed tasks rebuilt by `retryFailedFrames`
(lines 458-463). -/
def retryFrameSpecs (failed : List FrameTask) : List FrameSpec :=
  failed.map fun t =>
    { index := t.frameIndex, dataUrl := t.imageData, operation := t.operation,
      imageDescription := t.imageDescription }

/-- The tasks that a `retryFailedFrames` call hands to `processFrames`
(its task conversion applied to the rebuilt frames). -/
def resubmittedTasks (s : SchedulerState) : List FrameTask :=
  framesToTasks (retryFrameSpecs s.failedTasks)

/-- Embedding of `retryFailedFrames` (lines 455-467): an early return when no
task has failed; otherwise the failed set is cleared and re-submitted through
`processFrames` under the current quality profile. -/
def retryFailedFrames (s : SchedulerState) (usage : Option TokenUsageData) (now : Nat)
    (env : BatchEnv) : Option (SchedulerState × List (List FrameTask) × Except String Unit) :=
  if s.failedTasks = [] then some (s, [], Except.ok ())
  else
    processFrames { s with failedTasks := [] } (retryFrameSpecs s.failedTasks)
      s.progress.qualityProfile usage now env

/-- Embedding of `setQualityProfile` (lines 469-471): it unconditionally
stores the new profile into `progress`. -/
def setQualityProfile (s : SchedulerState) (p : QualityProfile) : SchedulerState :=
  { s with progress := { s.progress with qualityProfile := p } }

/-! ### Claims about the scheduler operations -/

/-- C10: invoking `processFrames` while a previous submission is still running
(`isProcessing = true`) throws "Processing already in progress" before any
mutation: the frame states, progress and failed set of the running batch are
left unchanged and no batch is created. -/
theorem processFrames_rejects_while_processing (s0 : SchedulerState) (frames : List FrameSpec)
    (qp : QualityProfile) (usage : Option TokenUsageData) (now : Nat) (env : BatchEnv)
    (h : s0.isProcessing = true) :
    processFrames s0 frames qp usage now env
      = some (s0, [], Except.error "Processing already in progress") := by
  unfold processFrames
  rw [if_pos h]

/-- A scheduler state mid-run: `isProcessing` set, phase `processing`. -/
def processingState : SchedulerState :=
  { idleSchedulerState with
      isProcessing := true
      progress := { idleSchedulerState.progress with phase := Phase.processing } }

theorem processFrames_rejects_while_processing_witness :
    processingState.isProcessing = true
    ∧ processFrames processingState
        [{ index := 9, dataUrl := "x", operation := Operation.analyze, imageDescription := none }]
        QualityProfile.balanced none 0 { ctrl := [], outs := [], speedEta := [] }
      = some (processingState, [], Except.error "Processing already in progress") :=
  ⟨rfl, processFrames_rejects_while_processing processingState
    [{ index := 9, dataUrl := "x", operation := Operation.analyze, imageDescription := none }]
    QualityProfile.balanced none 0 { ctrl := [], outs := [], speedEta := [] } rfl⟩

/-- C7: `retryFailedFrames` with an empty failed set returns before touching
anything: the scheduler state (frame states, progress, flags, failed set) is
returned unchanged, no batch is created, and nothing is thrown. -/
theorem retryFailedFrames_noop_when_none_failed (s : SchedulerState)
    (usage : Option TokenUsageData) (now : Nat) (env : BatchEnv)
    (h : s.failedTasks = []) :
    retryFailedFrames s usage now env = some (s, [], Except.ok ()) := by
  unfold retryFailedFrames
  rw [if_pos h]

theorem retryFailedFrames_noop_when_none_failed_witness :
    idleSchedulerState.failedTasks = []
    ∧ retryFailedFrames idleSchedulerState none 5000 { ctrl := [], outs := [], speedEta := [] }
        = some (idleSchedulerState, [], Except.ok ()) :=
  ⟨rfl, retryFailedFrames_noop_when_none_failed idleSchedulerState none 5000
    { ctrl := [], outs := [], speedEta := [] } rfl⟩

/-- C9 counterexample: with the scheduler mid-run (phase `processing`, profile
`balanced`), `setQualityProfile aggressive` is not rejected — the stored
quality profile changes, contradicting the claim that it is left unchanged
while `Processing`. -/
theorem setQualityProfile_during_processing_changes_profile :
    processingState.progress.phase = Phase.processing
    ∧ processingState.progress.qualityProfile = QualityProfile.balanced
    ∧ (setQualityProfile processingState QualityProfile.aggressive).progress.qualityProfile
        = QualityProfile.aggressive
    ∧ (setQualityProfile processingState QualityProfile.aggressive).progress.qualityProfile
        ≠ processingState.progress.qualityProfile := by
  decide

/-- C9 (amended): `setQualityProfile` carries no guard: even while the phase
is `processing` it unconditionally stores the requested profile (the rest of
the state is untouched, and the phase stays `processing`); the call is never
rejected. -/
theorem setQualityProfile_updates_even_while_processing (s : SchedulerState)
    (p : QualityProfile) (h : s.progress.phase = Phase.processing) :
    (setQualityProfile s p).progress.qualityProfile = p
    ∧ (setQualityProfile s p).progress.phase = Phase.processing
    ∧ (setQualityProfile s p).frameStates = s.frameStates
    ∧ (setQualityProfile s p).failedTasks = s.failedTasks
    ∧ (setQualityProfile s p).isProcessing = s.isProcessing
    ∧ (setQualityProfile s p).progress.completedFrames = s.progress.completedFrames := by
  exact ⟨rfl, h, rfl, rfl, rfl, rfl⟩

theorem setQualityProfile_updates_even_while_processing_witness :
    processingState.progress.phase = Phase.processing
    ∧ ((setQualityProfile processingState QualityProfile.conservative).progress.qualityProfile
          = QualityProfile.conservative
      ∧ (setQualityProfile processingState QualityProfile.conservative).progress.phase
          = Phase.processing
      ∧ (setQualityProfile processingState QualityProfile.conservative).frameStates
          = processingState.frameStates
      ∧ (setQualityProfile processingState QualityProfile.conservative).failedTasks
          = processingState.failedTasks
      ∧ (setQualityProfile processingState QualityProfile.conservative).isProcessing
          = processingState.isProcessing
      ∧ (setQualityProfile processingState QualityProfile.conservative).progress.completedFrames
          = processingState.progress.completedFrames) :=
  ⟨rfl, setQualityProfile_updates_even_while_processing processingState
    QualityProfile.conservative rfl⟩

/-- A scheduler state holding one failed task that has accumulated one retry. -/
def failedOnceState : SchedulerState :=
  { idleSchedulerState with
      failedTasks := [{ frameIndex := 0, imageData := "img", operation := Operation.analyze,
                        imageDescription := none, priority := 1, retryCount := 1 }] }

/-- C6 counterexample: re-submission does not preserve the accumulated
retryCount.  The failed task carries `retryCount = 1`, but the task that
`retryFailedFrames` hands back to `processFrames` carries `retryCount = 0`. -/
theorem retry_does_not_preserve_retryCount :
    failedOnceState.failedTasks.map FrameTask.retryCount = [1]
    ∧ (resubmittedTasks failedOnceState).map FrameTask.retryCount = [0]
    ∧ (resubmittedTasks failedOnceState).map FrameTask.retryCount
        ≠ failedOnceState.failedTasks.map FrameTask.retryCount := by
  decide

/-- C6 (amended): `retryFailedFrames` on a non-empty failed set re-submits
exactly the currently failed tasks — same frames, payloads, operations and
descriptions, in order — as a fresh batch through `processFrames`, but each
re-submitted task's `retryCount` is reset to 0 rather than preserved. -/
theorem retry_resubmits_only_failed_with_reset_count (s : SchedulerState)
    (usage : Option TokenUsageData) (now : Nat) (env : BatchEnv)
    (h : s.failedTasks ≠ []) :
    retryFailedFrames s usage now env
      = processFrames { s with failedTasks := [] } (retryFrameSpecs s.failedTasks)
          s.progress.qualityProfile usage now env
    ∧ resubmittedTasks s
        = s.failedTasks.map (fun t => { t with priority := 1, retryCount := 0 })
    ∧ (∀ t ∈ resubmittedTasks s, t.retryCount = 0)
    ∧ (resubmittedTasks s).map FrameTask.frameIndex
        = s.failedTasks.map FrameTask.frameIndex := by
  have hmap : resubmittedTasks s
      = s.failedTasks.map (fun t => { t with priority := 1, retryCount := 0 }) := by
    unfold resubmittedTasks framesToTasks retryFrameSpecs
    rw [List.map_map]
    rfl
  refine ⟨?_, hmap, ?_, ?_⟩
  · unfold retryFailedFrames
    rw [if_neg h]
  · intro t ht
    rw [hmap] at ht
    obtain ⟨a, ha, rfl⟩ := List.mem_map.mp ht
    rfl
  · rw [hmap, List.map_map]
    rfl

theorem retry_resubmits_only_failed_with_reset_count_witness :
    failedOnceState.failedTasks ≠ []
    ∧ (retryFailedFrames failedOnceState none 0 { ctrl := [], outs := [], speedEta := [] }
        = processFrames { failedOnceState with failedTasks := [] }
            (retryFrameSpecs failedOnceState.failedTasks)
            failedOnceState.progress.qualityProfile none 0
            { ctrl := [], outs := [], speedEta := [] }
      ∧ resubmittedTasks failedOnceState
          = failedOnceState.failedTasks.map (fun t => { t with priority := 1, retryCount := 0 })
      ∧ (∀ t ∈ resubmittedTasks failedOnceState, t.retryCount = 0)
      ∧ (resubmittedTasks failedOnceState).map FrameTask.frameIndex
          = failedOnceState.failedTasks.map FrameTask.frameIndex) :=
  ⟨by decide, retry_resubmits_only_failed_with_reset_count failedOnceState none 0
    { ctrl := [], outs := [], speedEta := [] } (by decide)⟩

/-- Four frames submitted under the conservative profile: two batches
(3 tasks, then 1 task). -/
def stopFrames : List FrameSpec :=
  [{ index := 0, dataUrl := "a", operation := Operation.analyze, imageDescription := none },
   { index := 1, dataUrl := "b", operation := Operation.analyze, imageDescription := none },
   { index := 2, dataUrl := "c", operation := Operation.analyze, imageDescription := none },
   { index := 3, dataUrl := "d", operation := Operation.analyze, imageDescription := none }]

/-- The environment of the C4 failing run: batch 0 settles with three
successes; while it was awaited the caller pauses, then stops. -/
def stopEnv : BatchEnv :=
  { ctrl := [BatchControl.run, BatchControl.pauseThenStop]
    outs := [[TaskOutcome.success false, TaskOutcome.success false, TaskOutcome.success false], []]
    speedEta := [(0, 0), (0, 0)] }

/-- C4: evaluation of the code at the failing input.  Submitting 4 frames,
letting batch 1 complete (3 successes), then pausing and stopping while the
second batch is still queued, ends with aggregate phase `complete` while only
`completedFrames + failedFrames = 3` of the `totalFrames = 4` submitted items
were counted (and no cancelled bucket exists in `SmartBatchProgress` at all):
the post-loop `setProgress complete` runs even after the stop-break, so the
claimed accounting invariant fails at phase `complete`. -/
theorem complete_phase_with_uncounted_items :
    (processFrames idleSchedulerState stopFrames QualityProfile.conservative none 0 stopEnv).map
        (fun r => (r.1.progress.phase, r.1.progress.totalFrames, r.1.progress.completedFrames,
                   r.1.progress.failedFrames, r.1.progress.cachedFrames))
      = some (Phase.complete, 4, 3, 0, 0) := by
  decide

/-! ### Content-cache deduplication (`analyzeFrame`, lines 139-219)

`analyzeFrame` first computes the payload fingerprint (`generateImageHash`,
a SHA-256 over the first 1000 characters of the data URL) and looks it up in
the `frame_analysis_cache` store; a hit returns immediately with
`isFromCache = true`, a miss runs the upstream call through the request
manager and only afterwards inserts the result into the cache.
`processBatch` (line 329) fires `analyzeFrame` for every task of a batch
concurrently, so all the cache lookups of a batch may resolve before any
insert happens.

The model: task `i` (fingerprint `fp i`) contributes two events — `check i`,
its cache lookup, and `complete i`, the settlement of its upstream call
together with the cache insert (performed only if its own lookup missed).
A schedule is an interleaving of these events with each task's `check` before
its `complete`; `crun` executes a schedule from the empty cache, recording
every real upstream call in `calls`. -/

inductive CEvent where
  | check (i : Nat)
  | complete (i : Nat)
deriving Repr, DecidableEq

structure CacheRun where
  cache : List String
  pending : List Nat
  calls : List (Nat × String)
deriving Repr, DecidableEq

def cstep (fp : Nat → String) (s : CacheRun) : CEvent → CacheRun
  | .check i => if fp i ∈ s.cache then s else { s with pending := s.pending ++ [i] }
  | .complete i =>
    if i ∈ s.pending then
      { cache := s.cache ++ [fp i], pending := s.pending.erase i,
        calls := s.calls ++ [(i, fp i)] }
    else s

def emptyCacheRun : CacheRun := { cache := [], pending := [], calls := [] }

def crun (fp : Nat → String) (events : List CEvent) : CacheRun :=
  events.foldl (cstep fp) emptyCacheRun

/-- The number of real upstream calls made for fingerprint `f`. -/
def upstreamCallCount (s : CacheRun) (f : String) : Nat :=
  (s.calls.filter fun c => decide (c.2 = f)).length

/-- Two work items whose payloads share their 1000-character prefix hash to
the same fingerprint. -/
def sharedFp : Nat → String := fun _ => "3f8a-shared-hash"

/-- The schedule that concurrent dispatch realises: both cache lookups resolve
(both miss) before either upstream call settles and stores. -/
def raceSchedule : List CEvent :=
  [CEvent.check 0, CEvent.check 1, CEvent.complete 0, CEvent.complete 1]

/-- C3 counterexample: two items of one batch with identical fingerprints,
dispatched concurrently by `processBatch`, both miss the cache and both make
a real upstream call — the per-fingerprint upstream call count is 2, not at
most 1. -/
theorem concurrent_duplicates_call_upstream_twice :
    sharedFp 0 = sharedFp 1
    ∧ upstreamCallCount (crun sharedFp raceSchedule) (sharedFp 0) = 2 := by
  decide

/-- The fully sequential schedule: item `i` settles (and stores) before item
`i + 1` checks the cache. -/
def seqSchedule : Nat → List CEvent
  | 0 => []
  | n + 1 => seqSchedule n ++ [CEvent.check n, CEvent.complete n]

theorem crun_seq_invariant (fp : Nat → String) (f : String) (n : Nat) :
    (crun fp (seqSchedule n)).pending = []
    ∧ upstreamCallCount (crun fp (seqSchedule n)) f ≤ 1
    ∧ (1 ≤ upstreamCallCount (crun fp (seqSchedule n)) f → f ∈ (crun fp (seqSchedule n)).cache) := by
  induction n with
  | zero =>
    refine ⟨rfl, ?_, ?_⟩ <;> simp [crun, seqSchedule, emptyCacheRun, upstreamCallCount]
  | succ n ih =>
    obtain ⟨hp, hc, hm⟩ := ih
    have hstep : crun fp (seqSchedule (n + 1))
        = cstep fp (cstep fp (crun fp (seqSchedule n)) (CEvent.check n)) (CEvent.complete n) := by
      show (seqSchedule n ++ [CEvent.check n, CEvent.complete n]).foldl (cstep fp) emptyCacheRun
        = _
      rw [List.foldl_append]
      rfl
    rw [hstep]
    set s := crun fp (seqSchedule n) with hs
    by_cases hmem : fp n ∈ s.cache
    · have h1 : cstep fp s (CEvent.check n) = s := by
        simp [cstep, hmem]
      rw [h1]
      have h2 : cstep fp s (CEvent.complete n) = s := by
        simp [cstep, hp]
      rw [h2]
      exact ⟨hp, hc, hm⟩
    · have h1 : cstep fp s (CEvent.check n) = { s with pending := [n] } := by
        simp [cstep, hmem, hp]
      rw [h1]
      have h2 : cstep fp { s with pending := [n] } (CEvent.complete n)
          = { cache := s.cache ++ [fp n], pending := ([n] : List Nat).erase n,
              calls := s.calls ++ [(n, fp n)] } := by
        simp [cstep]
      rw [h2]
      have hcount : ∀ g : String,
          upstreamCallCount
            { cache := s.cache ++ [fp n], pending := ([n] : List Nat).erase n,
              calls := s.calls ++ [(n, fp n)] } g
          = upstreamCallCount s g + (if fp n = g then 1 else 0) := by
        intro g
        show ((s.calls ++ [(n, fp n)]).filter fun c => decide (c.2 = g)).length = _
        rw [List.filter_append, List.length_append]
        congr 1
        by_cases hg : fp n = g <;> simp [hg, upstreamCallCount]
      refine ⟨by simp, ?_, ?_⟩
      · rw [hcount]
        by_cases hf : fp n = f
        · have hzero : upstreamCallCount s f = 0 := by
            by_contra hnz
            exact hmem (hf ▸ hm (by omega))
          rw [hzero, if_pos hf]
        · rw [if_neg hf]
          omega
      · intro hge
        rw [hcount] at hge
        by_cases hf : fp n = f
        · show f ∈ s.cache ++ [fp n]
          rw [hf] at *
          exact List.mem_append_right _ (List.mem_singleton_self f)
        · rw [if_neg hf] at hge
          have := hm (by omega)
          show f ∈ s.cache ++ [fp n]
          exact List.mem_append_left _ this

/-- C3 (amended): when items sharing a fingerprint are processed sequentially
(each item settles — including its cache insert — before the next item's
cache check, the schedule `seqSchedule` realises), at most one real upstream
call is made per fingerprint across the batch: every later item with that
fingerprint is served from the cache.  Concurrently dispatched duplicates are
not deduplicated — see the counterexample. -/
theorem sequential_duplicates_at_most_one_upstream_call (fp : Nat → String) (f : String)
    (n : Nat) : upstreamCallCount (crun fp (seqSchedule n)) f ≤ 1 :=
  (crun_seq_invariant fp f n).2.1

end Framesnap
